import Mathlib

/-!
Shallow embedding of the review normalization, deduplication and
cross-source overlap engine of the music-review-aggregator repository.

Sources embedded here:
- WorkingReviewService / EnhancedReviewService (src/unnamed/part_003):
  normalizeText, createAlbumKey, generateComparison, mergeReviews,
  and the overlap-row transformation of getAggregatedReviews.
- Database (src/database/database.js): insertReview (INSERT OR REPLACE
  under UNIQUE(artist, album, reviewer)), getReviews, getOverlappingReviews.
- CompactDatabase / generateComparison (src/server-compact.js).

Strings are lists of characters; JS `null`/`undefined` optional values are
`Option`; numeric scores are rationals; JS truthiness of a value is made
explicit.  Free-text template strings (generateComparisonSummary and the
comparison summary field) are presentation-only and not modelled.
-/

namespace MusicReview

abbrev Str := List Char

/-- JS truthiness of an optional number: null, undefined and 0 are falsy. -/
def truthyNum : Option ℚ → Bool
  | none => false
  | some x => x != 0

/-- JS truthiness of an optional string: null, undefined and the empty string are falsy. -/
def truthyStr : Option Str → Bool
  | none => false
  | some s => !s.isEmpty

/-- One-character ASCII lower-casing, modelling String.prototype.toLowerCase and
SQLite LOWER() on the ASCII range (code points 65-90 map to 97-122). -/
def jsLowerChar (c : Char) : Char :=
  if 65 ≤ c.toNat && c.toNat ≤ 90 then Char.ofNat (c.toNat + 32) else c

/-- Membership in the JS regex class \s, ASCII part (space, tab, LF, VT, FF, CR). -/
def isJsWs (c : Char) : Bool :=
  c = ' ' || c = '\t' || c = '\n' || c = '\x0b' || c = '\x0c' || c = '\r'

/-- Membership in the JS regex class \w: ASCII letters, digits and the underscore. -/
def isWordChar (c : Char) : Bool :=
  (97 ≤ c.toNat && c.toNat ≤ 122) || (65 ≤ c.toNat && c.toNat ≤ 90) ||
  (48 ≤ c.toNat && c.toNat ≤ 57) || c = '_'

/-- Replace each maximal run of whitespace by a single space, modelling
.replace of the pattern "one or more whitespace characters" with a space.
The flag records whether the previous character was whitespace. -/
def collapseWsAux : Bool → Str → Str
  | _, [] => []
  | prevWs, c :: rest =>
    if isJsWs c then
      if prevWs then collapseWsAux true rest
      else ' ' :: collapseWsAux true rest
    else c :: collapseWsAux false rest

def collapseWs (s : Str) : Str := collapseWsAux false s

def trimLeft (s : Str) : Str := s.dropWhile isJsWs

def trimRight (s : Str) : Str := (s.reverse.dropWhile isJsWs).reverse

/-- String.prototype.trim: drop leading and trailing whitespace. -/
def jsTrim (s : Str) : Str := trimRight (trimLeft s)

/-- WorkingReviewService.normalizeText (identical in EnhancedReviewService):
`(text || '').toLowerCase().replace(nonWordNonSpace, '').replace(spaceRun, ' ').trim()`.
A null/undefined or empty argument is replaced by the empty string. -/
def normalizeText (text : Option Str) : Str :=
  let s : Str :=
    match text with
    | none => []
    | some t => if t.isEmpty then [] else t
  jsTrim (collapseWs ((s.map jsLowerChar).filter (fun c => isWordChar c || isJsWs c)))

/-- WorkingReviewService.createAlbumKey: the two normalized fields joined by an
underscore. -/
def createAlbumKey (artist album : Option Str) : Str :=
  normalizeText artist ++ '_' :: normalizeText album

/-- The spec's own per-field transformation (section 4.1), written from the
spec words for refinement comparison with normalizeText: lower-case, remove
every character that is not alphanumeric or whitespace, collapse whitespace
runs, trim.  Unlike the source, it does not retain underscores. -/
def specNormalize (text : Str) : Str :=
  jsTrim (collapseWs ((text.map jsLowerChar).filter (fun c => c.isAlphanum || isJsWs c)))

/-- The spec's join key: the two spec-transformed fields joined by an underscore. -/
def specKey (artist album : Str) : Str :=
  specNormalize artist ++ '_' :: specNormalize album

/-- Math.abs. -/
def jsAbs (x : ℚ) : ℚ := if x < 0 then -x else x

/-- Math.round: round half toward positive infinity. -/
def jsRound (x : ℚ) : ℤ := ⌊x + 1 / 2⌋

/-- Math.round(x * 10) / 10. -/
def roundTo1 (x : ℚ) : ℚ := (jsRound (x * 10) : ℚ) / 10

/-- The comparison object built by generateComparison.  The free-text summary
field is presentation-only and not modelled. -/
structure Comparison where
  score_difference : ℚ
  average_score : ℚ
  agreement_level : String
  higher_rating : String
deriving DecidableEq

/-- WorkingReviewService.generateComparison (identical in EnhancedReviewService),
taking the fantano_score and scaruffi_score fields of its argument object.
Falsy (absent or zero) scores yield null. -/
def generateComparison (fantano_score scaruffi_score : Option ℚ) : Option Comparison :=
  if !truthyNum fantano_score || !truthyNum scaruffi_score then
    none
  else
    let fantanoScore := fantano_score.getD 0
    let scaruffiScore := scaruffi_score.getD 0
    let scoreDiff := jsAbs (fantanoScore - scaruffiScore)
    let avgScore := (fantanoScore + scaruffiScore) / 2
    let agreement : String :=
      if scoreDiff > 3 then "disagree"
      else if scoreDiff < 1 then "agree"
      else "similar"
    let higherRating : String := if fantanoScore > scaruffiScore then "fantano" else "scaruffi"
    some {
      score_difference := roundTo1 scoreDiff
      average_score := roundTo1 avgScore
      agreement_level := agreement
      higher_rating := if scoreDiff > (1 / 2 : ℚ) then higherRating else "similar"
    }

/-- generateComparison of src/server-compact.js: same thresholds for the
agreement level, but higher_rating always names the side with the greater
score and has no "similar" branch. -/
def generateComparisonCompact (fantano scaruffi : Option ℚ) : Option Comparison :=
  if !truthyNum fantano || !truthyNum scaruffi then
    none
  else
    let f := fantano.getD 0
    let s := scaruffi.getD 0
    let diff := jsAbs (f - s)
    let avg := (f + s) / 2
    let agreement : String :=
      if diff > 3 then "disagree"
      else if diff < 1 then "agree"
      else "similar"
    some {
      score_difference := roundTo1 diff
      average_score := roundTo1 avg
      agreement_level := agreement
      higher_rating := if f > s then "fantano" else "scaruffi"
    }

/-- A review record in API format, as produced by getFantanoReviews /
getScaruffiReviews and consumed by mergeReviews.  JS objects carry whatever
fields were spread into them; absent fields are `none` (undefined), the
overlap flag is falsy (false) unless set. -/
structure JsReview where
  artist : Str
  album : Str
  year : Option ℤ := none
  fantano_score : Option ℚ := none
  fantano_summary : Option Str := none
  scaruffi_score : Option ℚ := none
  scaruffi_summary : Option Str := none
  source : Option Str := none
  source_url : Option Str := none
  scraped_at : Option Str := none
  scaruffi_url : Option Str := none
  overlap : Bool := false
  comparison : Option Comparison := none
deriving DecidableEq

/-- Insert x into a list sorted by the strict order lt, after every element
that x is not strictly before.  Building a sort from this insertion is stable:
tied elements keep their original relative order. -/
def stInsert (lt : α → α → Bool) (x : α) : List α → List α
  | [] => [x]
  | y :: ys => if lt x y then x :: y :: ys else y :: stInsert lt x ys

/-- Stable comparator sort, modelling both Array.prototype.sort with a
consistent comparator (stable per the JS spec) and SQL ORDER BY with
equal-key rows kept in scan order. -/
def stableSort (lt : α → α → Bool) (l : List α) : List α :=
  l.foldl (fun acc x => stInsert lt x acc) []

/-- Adjacent-pairs sortedness check for a non-strict order le. -/
def sortedBy (le : α → α → Bool) : List α → Bool
  | [] => true
  | [_] => true
  | a :: b :: rest => le a b && sortedBy le (b :: rest)

/-- JS (x || 0) on an optional number: null, undefined and 0 all give 0. -/
def qOrZero : Option ℚ → ℚ
  | none => 0
  | some x => x

/-- JS (x || 0) on an optional integer. -/
def zOrZero : Option ℤ → ℤ
  | none => 0
  | some y => y

/-- The comparator passed to merged.sort in mergeReviews: overlaps first;
among overlaps larger score difference first; otherwise year descending,
with missing year and missing scores treated as 0. -/
def mergeCmp (a b : JsReview) : ℚ :=
  if a.overlap && !b.overlap then -1
  else if !a.overlap && b.overlap then 1
  else if a.overlap && b.overlap then
    let aScoreDiff := jsAbs (qOrZero a.fantano_score - qOrZero a.scaruffi_score)
    let bScoreDiff := jsAbs (qOrZero b.fantano_score - qOrZero b.scaruffi_score)
    bScoreDiff - aScoreDiff
  else ((zOrZero b.year : ℚ) - (zOrZero a.year : ℚ))

/-- JS Map.set: overwrite an existing binding in place, else append. -/
def mapSet (m : List (Str × JsReview)) (k : Str) (v : JsReview) : List (Str × JsReview) :=
  if m.any (fun p => p.1 == k) then
    m.map (fun p => if p.1 == k then (k, v) else p)
  else m ++ [(k, v)]

/-- JS Map.get. -/
def mapGet (m : List (Str × JsReview)) (k : Str) : Option JsReview :=
  (m.find? (fun p => p.1 == k)).map Prod.snd

/-- WorkingReviewService.mergeReviews (the same code appears verbatim in
EnhancedReviewService.mergeReviews).  The fantano loop stores one copy of
each review in the map and pushes a second, distinct copy onto merged; the
scaruffi loop's Object.assign therefore rebuilds only the map's copy, never
the entry already in merged.  Finally the merged list is sorted with
mergeCmp and sliced to maxResults. -/
def mergeReviews (fantanoReviews scaruffiReviews : List JsReview) (maxResults : Nat) :
    List JsReview :=
  let indexed : List JsReview × List (Str × JsReview) :=
    fantanoReviews.foldl
      (fun acc review =>
        let key := createAlbumKey (some review.artist) (some review.album)
        (acc.1 ++ [review], mapSet acc.2 key review))
      ([], [])
  let merged : List JsReview × List (Str × JsReview) :=
    scaruffiReviews.foldl
      (fun acc review =>
        let key := createAlbumKey (some review.artist) (some review.album)
        match mapGet acc.2 key with
        | some existing =>
          let updated : JsReview := { existing with
            scaruffi_score := review.scaruffi_score
            scaruffi_summary := review.scaruffi_summary
            scaruffi_url := review.source_url
            overlap := true
            comparison := generateComparison existing.fantano_score review.scaruffi_score }
          (acc.1, mapSet acc.2 key updated)
        | none => (acc.1 ++ [review], acc.2))
      indexed
  (stableSort (fun a b => decide (mergeCmp a b < 0)) merged.1).take maxResults

/-- The list before slicing: mergeReviews sorts the merged list with mergeCmp
and only then truncates.  Separated out so truncation-after-sort is statable. -/
def mergeSortedFull (fantanoReviews scaruffiReviews : List JsReview) : List JsReview :=
  let indexed : List JsReview × List (Str × JsReview) :=
    fantanoReviews.foldl
      (fun acc review =>
        let key := createAlbumKey (some review.artist) (some review.album)
        (acc.1 ++ [review], mapSet acc.2 key review))
      ([], [])
  let merged : List JsReview × List (Str × JsReview) :=
    scaruffiReviews.foldl
      (fun acc review =>
        let key := createAlbumKey (some review.artist) (some review.album)
        match mapGet acc.2 key with
        | some existing =>
          let updated : JsReview := { existing with
            scaruffi_score := review.scaruffi_score
            scaruffi_summary := review.scaruffi_summary
            scaruffi_url := review.source_url
            overlap := true
            comparison := generateComparison existing.fantano_score review.scaruffi_score }
          (acc.1, mapSet acc.2 key updated)
        | none => (acc.1 ++ [review], acc.2))
      indexed
  stableSort (fun a b => decide (mergeCmp a b < 0)) merged.1

/-- A row of the reviews table (columns the queries read; rowid order is the
list order, so insertion order is positional). -/
structure Row where
  artist : Str
  album : Str
  year : Option ℤ := none
  reviewer : Str
  score : Option ℚ := none
  summary : Option Str := none
  full_text : Option Str := none
  source_url : Option Str := none
  video_id : Option Str := none
deriving DecidableEq

/-- Equality of the raw tuple guarded by UNIQUE(artist, album, reviewer):
SQLite TEXT equality under the default BINARY collation is exact string
equality, no normalization and no case folding. -/
def sameRawKey (a b : Row) : Bool :=
  a.artist == b.artist && a.album == b.album && a.reviewer == b.reviewer

/-- Database.insertReview: INSERT OR REPLACE under UNIQUE(artist, album,
reviewer).  A conflicting row is deleted and the new row is inserted with a
fresh (largest) rowid, i.e. at the end. -/
def insertReview (db : List Row) (r : Row) : List Row :=
  db.filter (fun x => !sameRawKey x r) ++ [r]

/-- A sequence of insertReview calls starting from the empty table. -/
def applyInserts (rs : List Row) : List Row :=
  rs.foldl insertReview []

/-- Pairwise distinctness of the raw (artist, album, reviewer) tuples. -/
def distinctKeys : List Row → Bool
  | [] => true
  | r :: rest => rest.all (fun x => !sameRawKey r x) && distinctKeys rest

/-- SQLite LOWER(). -/
def sqlLower (s : Str) : Str := s.map jsLowerChar

/-- LIKE p with the pattern wrapped in percent signs on both sides, i.e.
substring containment (wildcards inside the needle itself are not modelled). -/
def strContains (hay needle : Str) : Bool :=
  hay.tails.any (fun t => needle.isPrefixOf t)

/-- SQL comparison of nullable integers: NULL sorts below every value. -/
def optIntLt : Option ℤ → Option ℤ → Bool
  | none, none => false
  | none, some _ => true
  | some _, none => false
  | some x, some y => x < y

/-- SQL comparison of nullable reals: NULL sorts below every value. -/
def optRatLt : Option ℚ → Option ℚ → Bool
  | none, none => false
  | none, some _ => true
  | some _, none => false
  | some x, some y => x < y

/-- Strict lexicographic order on strings by code point (BINARY collation). -/
def strLt : Str → Str → Bool
  | _, [] => false
  | [], _ :: _ => true
  | a :: restA, b :: restB =>
    if a < b then true else if b < a then false else strLt restA restB

/-- The ORDER BY key of Database.getReviews: year DESC (NULL last), then
artist ascending, then album ascending. -/
def dbRowLt (a b : Row) : Bool :=
  if optIntLt b.year a.year then true
  else if optIntLt a.year b.year then false
  else if strLt a.artist b.artist then true
  else if strLt b.artist a.artist then false
  else strLt a.album b.album

def dbRowLe (a b : Row) : Bool := !dbRowLt b a

/-- The WHERE clause of Database.getReviews: each filter applies only when
its parameter is truthy; artist and album are case-insensitive substring
matches, reviewer is exact. -/
def rowMatches (artist album reviewer : Option Str) (r : Row) : Bool :=
  (if truthyStr artist then strContains (sqlLower r.artist) (sqlLower (artist.getD [])) else true) &&
  (if truthyStr album then strContains (sqlLower r.album) (sqlLower (album.getD [])) else true) &&
  (if truthyStr reviewer then r.reviewer == reviewer.getD [] else true)

/-- Database.getReviews (src/database/database.js): filter, ORDER BY year
DESC, artist, album, then LIMIT with OFFSET.  Rows with equal sort keys are
returned in rowid order (modelled by the stable sort). -/
def dbGetReviews (db : List Row) (artist album reviewer : Option Str)
    (limit offset : Nat) : List Row :=
  ((stableSort dbRowLt (db.filter (rowMatches artist album reviewer))).drop offset).take limit

/-- The ORDER BY key of CompactDatabase.getReviews in src/server-compact.js:
year DESC, then score DESC (NULL last in both). -/
def compactRowLt (a b : Row) : Bool :=
  if optIntLt b.year a.year then true
  else if optIntLt a.year b.year then false
  else if optRatLt b.score a.score then true
  else false

def compactRowLe (a b : Row) : Bool := !compactRowLt b a

/-- The WHERE clause of CompactDatabase.getReviews: the getReviews filters
plus score bounds; a falsy (absent or zero) bound is skipped, and a NULL
score never satisfies a bound comparison. -/
def compactMatches (artist album reviewer : Option Str) (minScore maxScore : Option ℚ)
    (r : Row) : Bool :=
  rowMatches artist album reviewer r &&
  (if truthyNum minScore then
    (match r.score with
     | some s => decide (s ≥ minScore.getD 0)
     | none => false)
   else true) &&
  (if truthyNum maxScore then
    (match r.score with
     | some s => decide (s ≤ maxScore.getD 0)
     | none => false)
   else true)

/-- CompactDatabase.getReviews (src/server-compact.js): filter, ORDER BY
year DESC, score DESC, LIMIT (no offset). -/
def compactGetReviews (db : List Row) (artist album reviewer : Option Str)
    (minScore maxScore : Option ℚ) (limit : Nat) : List Row :=
  (stableSort compactRowLt (db.filter (compactMatches artist album reviewer minScore maxScore))).take limit

/-- The column list selected by the overlap queries. -/
structure OverlapRow where
  artist : Str
  album : Str
  year : Option ℤ
  fantano_score : Option ℚ
  fantano_summary : Option Str
  fantano_url : Option Str
  scaruffi_score : Option ℚ
  scaruffi_summary : Option Str
  scaruffi_url : Option Str
deriving DecidableEq

def joinRow (r1 r2 : Row) : OverlapRow :=
  { artist := r1.artist
    album := r1.album
    year := r1.year
    fantano_score := r1.score
    fantano_summary := r1.summary
    fantano_url := r1.source_url
    scaruffi_score := r2.score
    scaruffi_summary := r2.summary
    scaruffi_url := r2.source_url }

/-- The join condition of the overlap queries: LOWER-equal artist and album,
r1 from fantano and r2 from scaruffi. -/
def overlapJoinCond (r1 r2 : Row) : Bool :=
  sqlLower r1.artist == sqlLower r2.artist &&
  sqlLower r1.album == sqlLower r2.album &&
  r1.reviewer == "fantano".data && r2.reviewer == "scaruffi".data

/-- ORDER BY r1.year DESC. -/
def overlapYearLt (a b : OverlapRow) : Bool := optIntLt b.year a.year

def overlapYearLe (a b : OverlapRow) : Bool := !overlapYearLt b a

/-- Database.getOverlappingReviews: self-join of the reviews table (nested
scan in rowid order), optional artist/album substring filters on r1, ORDER
BY r1.year DESC, LIMIT.  No secondary sort key. -/
def getOverlappingReviews (db : List Row) (artist album : Option Str) (limit : Nat) :
    List OverlapRow :=
  let joined := db.foldr (fun r1 acc =>
    (db.filterMap (fun r2 =>
      if overlapJoinCond r1 r2 &&
         (if truthyStr artist then strContains (sqlLower r1.artist) (sqlLower (artist.getD [])) else true) &&
         (if truthyStr album then strContains (sqlLower r1.album) (sqlLower (album.getD [])) else true)
      then some (joinRow r1 r2) else none)) ++ acc) []
  (stableSort overlapYearLt joined).take limit

/-- CompactDatabase.getOverlaps (src/server-compact.js): the same self-join
with no filters and no limit, ORDER BY r1.year DESC only. -/
def compactGetOverlaps (db : List Row) : List OverlapRow :=
  let joined := db.foldr (fun r1 acc =>
    (db.filterMap (fun r2 =>
      if overlapJoinCond r1 r2 then some (joinRow r1 r2) else none)) ++ acc) []
  stableSort overlapYearLt joined

/-- An overlap entry emitted by the includeOverlapOnly branch of
WorkingReviewService.getAggregatedReviews. -/
structure OverlapEntry where
  artist : Str
  album : Str
  year : Option ℤ
  fantano_score : Option ℚ
  fantano_summary : Option Str
  fantano_url : Option Str
  scaruffi_score : Option ℚ
  scaruffi_summary : Option Str
  scaruffi_url : Option Str
  overlap : Bool
  comparison : Option Comparison
deriving DecidableEq

/-- The map over overlappingReviews in getAggregatedReviews: every joined
row is emitted with its raw fields, overlap true, and a comparison that may
be null. -/
def transformOverlaps (rows : List OverlapRow) : List OverlapEntry :=
  rows.map (fun r =>
    { artist := r.artist
      album := r.album
      year := r.year
      fantano_score := r.fantano_score
      fantano_summary := r.fantano_summary
      fantano_url := r.fantano_url
      scaruffi_score := r.scaruffi_score
      scaruffi_summary := r.scaruffi_summary
      scaruffi_url := r.scaruffi_url
      overlap := true
      comparison := generateComparison r.fantano_score r.scaruffi_score })

/-- ASCII upper-case letter test (code points 65-90). -/
def isUpperAscii (c : Char) : Bool := 65 ≤ c.toNat && c.toNat ≤ 90

/-- The Kid A review of the spec's aggregate example, sourceA (fantano) side,
in the API format mergeReviews receives. -/
def exF1 : JsReview :=
  { artist := "Radiohead".data, album := "Kid A".data, year := some 2000,
    fantano_score := some 9 }

/-- The Kid A review of the spec's aggregate example, sourceB (scaruffi) side. -/
def exS1 : JsReview :=
  { artist := "Radiohead".data, album := "Kid A".data, year := some 2000,
    scaruffi_score := some (17 / 2) }

/-- The Tago Mago review of the spec's aggregate example, sourceB only. -/
def exS2 : JsReview :=
  { artist := "Can".data, album := "Tago Mago".data, year := some 1971,
    scaruffi_score := some (19 / 2) }

/-- Store row inserted first in the C2 counterexample. -/
def dupA : Row :=
  { artist := "Radiohead".data, album := "Kid A".data, year := some 2000,
    reviewer := "fantano".data, score := some 9 }

/-- Store row inserted second in the C2 counterexample: different raw casing,
same normalized key, same reviewer, different score. -/
def dupB : Row :=
  { artist := "RADIOHEAD".data, album := "Kid A".data, year := some 2000,
    reviewer := "fantano".data, score := some 8 }

/-- Row inserted first in the C7 counterexample: same year as exRowA, later
artist, higher score. -/
def exRowB : Row :=
  { artist := "B".data, album := "x".data, year := some 2000,
    reviewer := "fantano".data, score := some 9 }

/-- Row inserted second in the C7 counterexample: same year, earlier artist,
lower score. -/
def exRowA : Row :=
  { artist := "A".data, album := "x".data, year := some 2000,
    reviewer := "fantano".data, score := some 5 }

/-- C8 counterexample rows: two overlapping albums in the same year, the
earlier-rowid pair with the smaller score difference. -/
def cFX : Row :=
  { artist := "X".data, album := "x".data, year := some 2000,
    reviewer := "fantano".data, score := some 5 }

def cFY : Row :=
  { artist := "Y".data, album := "y".data, year := some 2000,
    reviewer := "fantano".data, score := some 9 }

def cSX : Row :=
  { artist := "X".data, album := "x".data, year := some 2000,
    reviewer := "scaruffi".data, score := some 5 }

def cSY : Row :=
  { artist := "Y".data, album := "y".data, year := some 2000,
    reviewer := "scaruffi".data, score := some 2 }

/-! Helper lemmas about the stable sort. -/

theorem sortedBy_stInsert (lt : α → α → Bool)
    (asym : ∀ a b, lt a b = true → lt b a = false) (x : α) :
    ∀ l : List α, sortedBy (fun a b => !lt b a) l = true →
      sortedBy (fun a b => !lt b a) (stInsert lt x l) = true
  | [], _ => by simp [stInsert, sortedBy]
  | [y], _ => by
    cases hxy : lt x y
    · simp [stInsert, hxy, sortedBy]
    · simp [stInsert, hxy, sortedBy, asym x y hxy]
  | y :: z :: zs, h => by
    have h1 : lt z y = false := by
      cases hzy : lt z y
      · rfl
      · simp [sortedBy, hzy] at h
    have h2 : sortedBy (fun a b => !lt b a) (z :: zs) = true := by
      simp [sortedBy] at h ⊢
      exact h.2
    have IH := sortedBy_stInsert lt asym x (z :: zs) h2
    cases hxy : lt x y
    · cases hxz : lt x z
      · simp only [stInsert, hxy, hxz, Bool.false_eq_true, if_false] at IH ⊢
        simp only [sortedBy, h1, Bool.not_false, Bool.true_and]
        exact IH
      · simp only [stInsert, hxy, hxz, Bool.false_eq_true, if_false, if_true] at IH ⊢
        simp only [sortedBy, hxy, Bool.not_false, Bool.true_and]
        exact IH
    · simp only [stInsert, hxy, if_true]
      simp only [sortedBy, asym x y hxy, Bool.not_false, Bool.true_and]
      exact h

theorem sortedBy_foldl_stInsert (lt : α → α → Bool)
    (asym : ∀ a b, lt a b = true → lt b a = false) :
    ∀ (l acc : List α), sortedBy (fun a b => !lt b a) acc = true →
      sortedBy (fun a b => !lt b a) (l.foldl (fun acc x => stInsert lt x acc) acc) = true
  | [], acc, h => h
  | x :: rest, acc, h =>
    sortedBy_foldl_stInsert lt asym rest (stInsert lt x acc) (sortedBy_stInsert lt asym x acc h)

theorem sortedBy_stableSort (lt : α → α → Bool)
    (asym : ∀ a b, lt a b = true → lt b a = false) (l : List α) :
    sortedBy (fun a b => !lt b a) (stableSort lt l) = true :=
  sortedBy_foldl_stInsert lt asym l [] rfl

theorem length_stInsert (lt : α → α → Bool) (x : α) :
    ∀ l : List α, (stInsert lt x l).length = l.length + 1
  | [] => rfl
  | y :: ys => by
    by_cases hxy : lt x y = true
    · simp [stInsert, hxy]
    · simp [stInsert, hxy, length_stInsert lt x ys]

theorem length_foldl_stInsert (lt : α → α → Bool) :
    ∀ (l acc : List α),
      (l.foldl (fun acc x => stInsert lt x acc) acc).length = acc.length + l.length
  | [], acc => rfl
  | x :: rest, acc => by
    rw [List.foldl_cons, length_foldl_stInsert lt rest (stInsert lt x acc),
      length_stInsert]
    simp [List.length_cons]
    omega

theorem length_stableSort (lt : α → α → Bool) (l : List α) :
    (stableSort lt l).length = l.length := by
  simpa using length_foldl_stInsert lt l []

theorem mem_stInsert (lt : α → α → Bool) (x a : α) :
    ∀ l : List α, a ∈ stInsert lt x l ↔ a = x ∨ a ∈ l
  | [] => by simp [stInsert]
  | y :: ys => by
    by_cases hxy : lt x y = true
    · simp [stInsert, hxy]
    · simp [stInsert, hxy, mem_stInsert lt x a ys]
      tauto

theorem mem_foldl_stInsert (lt : α → α → Bool) (a : α) :
    ∀ (l acc : List α),
      a ∈ l.foldl (fun acc x => stInsert lt x acc) acc ↔ a ∈ acc ∨ a ∈ l
  | [], acc => by simp
  | x :: rest, acc => by
    rw [List.foldl_cons, mem_foldl_stInsert lt a rest (stInsert lt x acc)]
    simp [mem_stInsert]
    tauto

theorem mem_stableSort (lt : α → α → Bool) (a : α) (l : List α) :
    a ∈ stableSort lt l ↔ a ∈ l := by
  simpa [stableSort] using mem_foldl_stInsert lt a l []

theorem all_stableSort (lt : α → α → Bool) (p : α → Bool) (l : List α) :
    (stableSort lt l).all p = l.all p := by
  rw [Bool.eq_iff_iff]
  simp only [List.all_eq_true]
  constructor
  · intro h a ha
    exact h a ((mem_stableSort lt a l).mpr ha)
  · intro h a ha
    exact h a ((mem_stableSort lt a l).mp ha)

/-! Asymmetry of the concrete sort orders. -/

theorem optIntLt_asymm (x y : Option ℤ) (h : optIntLt x y = true) : optIntLt y x = false := by
  cases x <;> cases y <;> simp [optIntLt] at h ⊢ <;> omega

theorem optRatLt_asymm (x y : Option ℚ) (h : optRatLt x y = true) : optRatLt y x = false := by
  cases x <;> cases y <;> simp [optRatLt] at h ⊢
  linarith

theorem strLt_asymm : ∀ s t : Str, strLt s t = true → strLt t s = false
  | _, [], h => by simp [strLt] at h
  | [], _ :: _, _ => by simp [strLt]
  | a :: restA, b :: restB, h => by
    by_cases hab : a < b
    · simp [strLt, hab, not_lt_of_lt hab]
    · by_cases hba : b < a
      · simp [strLt, hab, hba] at h
      · simp [strLt, hab, hba] at h ⊢
        exact strLt_asymm restA restB h

theorem dbRowLt_asymm (a b : Row) (h : dbRowLt a b = true) : dbRowLt b a = false := by
  unfold dbRowLt at h ⊢
  by_cases h1 : optIntLt b.year a.year = true
  · simp [h1, optIntLt_asymm _ _ h1]
  · by_cases h2 : optIntLt a.year b.year = true
    · simp [h1, h2] at h
    · by_cases h3 : strLt a.artist b.artist = true
      · simp [h1, h2, h3, strLt_asymm _ _ h3]
      · by_cases h4 : strLt b.artist a.artist = true
        · simp [h1, h2, h3, h4] at h
        · simp [h1, h2, h3, h4] at h ⊢
          exact strLt_asymm _ _ h

theorem compactRowLt_asymm (a b : Row) (h : compactRowLt a b = true) :
    compactRowLt b a = false := by
  unfold compactRowLt at h ⊢
  by_cases h1 : optIntLt b.year a.year = true
  · simp [h1, optIntLt_asymm _ _ h1]
  · by_cases h2 : optIntLt a.year b.year = true
    · simp [h1, h2] at h
    · by_cases h3 : optRatLt b.score a.score = true
      · simp [h1, h2, h3, optRatLt_asymm _ _ h3]
      · simp [h1, h2, h3] at h

theorem overlapYearLt_asymm (a b : OverlapRow) (h : overlapYearLt a b = true) :
    overlapYearLt b a = false := by
  unfold overlapYearLt at h ⊢
  exact optIntLt_asymm _ _ h

/-- The mergeReviews comparator is antisymmetric: swapping the arguments
negates its value. -/
theorem mergeCmp_swap (a b : JsReview) : mergeCmp b a = -mergeCmp a b := by
  cases ha : a.overlap <;> cases hb : b.overlap <;>
    simp [mergeCmp, ha, hb] <;> ring

theorem mergeLt_asymm (a b : JsReview)
    (h : decide (mergeCmp a b < 0) = true) : decide (mergeCmp b a < 0) = false := by
  rw [mergeCmp_swap]
  simp at h ⊢
  linarith

/-! Helper lemmas about insertReview and key uniqueness. -/

theorem sameRawKey_refl (r : Row) : sameRawKey r r = true := by
  simp [sameRawKey]

theorem sameRawKey_symm (a b : Row) (h : sameRawKey a b = true) : sameRawKey b a = true := by
  simp [sameRawKey] at h ⊢
  exact ⟨⟨h.1.1.symm, h.1.2.symm⟩, h.2.symm⟩

theorem filter_insertReview (db : List Row) (r : Row) :
    (insertReview db r).filter (fun x => sameRawKey x r) = [r] := by
  unfold insertReview
  rw [List.filter_append]
  have h1 : (db.filter (fun x => !sameRawKey x r)).filter (fun x => sameRawKey x r) = [] := by
    rw [List.filter_filter]
    apply List.filter_eq_nil.mpr
    intro a _
    cases hk : sameRawKey a r <;> simp [hk]
  rw [h1]
  simp [sameRawKey_refl]

theorem all_filter_not_key (db : List Row) (r : Row) :
    (db.filter (fun x => !sameRawKey x r)).all (fun x => !sameRawKey x r) = true := by
  rw [List.all_eq_true]
  intro a ha
  exact (List.mem_filter.mp ha).2

theorem distinctKeys_filter (p : Row → Bool) :
    ∀ db : List Row, distinctKeys db = true → distinctKeys (db.filter p) = true
  | [], _ => rfl
  | r :: rest, h => by
    have h1 : rest.all (fun x => !sameRawKey r x) = true := by
      simp [distinctKeys] at h
      rw [List.all_eq_true]
      intro a ha
      simpa using h.1 a ha
    have h2 := distinctKeys_filter p rest (by simp [distinctKeys] at h; exact h.2)
    cases hp : p r
    · simpa [List.filter_cons, hp] using h2
    · have ha : ((rest.filter p).all (fun x => !sameRawKey r x)) = true := by
        rw [List.all_eq_true]
        intro a hmem
        rw [List.all_eq_true] at h1
        exact h1 a (List.mem_filter.mp hmem).1
      simp [List.filter_cons, hp, distinctKeys, ha, h2]

theorem distinctKeys_append_singleton (r : Row) :
    ∀ l : List Row, distinctKeys l = true → l.all (fun x => !sameRawKey x r) = true →
      distinctKeys (l ++ [r]) = true
  | [], _, _ => by simp [distinctKeys]
  | x :: rest, h, hall => by
    simp only [distinctKeys, Bool.and_eq_true] at h
    simp only [List.all_cons, Bool.and_eq_true] at hall
    have IH := distinctKeys_append_singleton r rest h.2 hall.2
    simp only [List.cons_append, distinctKeys, Bool.and_eq_true]
    refine ⟨?_, IH⟩
    rw [List.all_eq_true]
    intro a ha
    rcases List.mem_append.mp ha with hmem | hmem
    · rw [List.all_eq_true] at h
      exact h.1 a hmem
    · have : a = r := by simpa using hmem
      subst this
      simp [hall.1]

theorem distinctKeys_insertReview (db : List Row) (r : Row)
    (h : distinctKeys db = true) : distinctKeys (insertReview db r) = true := by
  unfold insertReview
  exact distinctKeys_append_singleton r _ (distinctKeys_filter _ db h)
    (all_filter_not_key db r)

theorem distinctKeys_foldl :
    ∀ (rs db : List Row), distinctKeys db = true →
      distinctKeys (rs.foldl insertReview db) = true
  | [], _, h => h
  | r :: rest, db, h =>
    distinctKeys_foldl rest (insertReview db r) (distinctKeys_insertReview db r h)

/-! Character-level lemmas about the normalization pipeline. -/

theorem mem_dropWhile (p : Char → Bool) (c : Char) :
    ∀ s : Str, c ∈ s.dropWhile p → c ∈ s
  | [], h => h
  | a :: rest, h => by
    by_cases ha : p a = true
    · simp only [List.dropWhile, ha] at h
      exact List.mem_cons_of_mem a (mem_dropWhile p c rest h)
    · simp only [List.dropWhile] at h
      rw [Bool.eq_false_iff.mpr ha] at h
      simpa using h

theorem mem_jsTrim (c : Char) (s : Str) (h : c ∈ jsTrim s) : c ∈ s := by
  unfold jsTrim trimRight trimLeft at h
  have h1 := List.mem_reverse.mpr h
  rw [List.reverse_reverse] at h1
  have h2 := mem_dropWhile isJsWs c _ h1
  have h3 := List.mem_reverse.mp h2
  exact mem_dropWhile isJsWs c s h3

theorem mem_collapseWsAux (c : Char) :
    ∀ (b : Bool) (s : Str), c ∈ collapseWsAux b s →
      c = ' ' ∨ (c ∈ s ∧ isJsWs c = false)
  | _, [], h => by simp [collapseWsAux] at h
  | b, a :: rest, h => by
    by_cases ha : isJsWs a = true
    · cases b
      · simp only [collapseWsAux, ha, if_pos rfl, Bool.false_eq_true, if_false] at h
        rcases List.mem_cons.mp h with hc | hc
        · exact Or.inl hc
        · rcases mem_collapseWsAux c true rest hc with hc2 | hc2
          · exact Or.inl hc2
          · exact Or.inr ⟨List.mem_cons_of_mem a hc2.1, hc2.2⟩
      · simp only [collapseWsAux, ha, if_pos rfl] at h
        rcases mem_collapseWsAux c true rest h with hc2 | hc2
        · exact Or.inl hc2
        · exact Or.inr ⟨List.mem_cons_of_mem a hc2.1, hc2.2⟩
    · simp only [collapseWsAux, Bool.eq_false_iff.mpr ha, Bool.false_eq_true, if_false] at h
      rcases List.mem_cons.mp h with hc | hc
      · subst hc
        exact Or.inr ⟨List.mem_cons_self c rest, Bool.eq_false_iff.mpr ha⟩
      · rcases mem_collapseWsAux c false rest hc with hc2 | hc2
        · exact Or.inl hc2
        · exact Or.inr ⟨List.mem_cons_of_mem a hc2.1, hc2.2⟩

theorem jsLowerChar_not_upper (c : Char) : isUpperAscii (jsLowerChar c) = false := by
  unfold jsLowerChar
  by_cases hg : (65 ≤ c.toNat && c.toNat ≤ 90) = true
  · rw [if_pos hg]
    simp only [Bool.and_eq_true, decide_eq_true_eq] at hg
    obtain ⟨hlo, hhi⟩ := hg
    set n := c.toNat with hn
    interval_cases n <;> decide
  · rw [if_neg hg]
    unfold isUpperAscii
    exact Bool.eq_false_iff.mpr hg

/-- Every character of a normalized field is a word character or a space, and
never an upper-case ASCII letter. -/
theorem normalizeText_chars (t : Option Str) (c : Char) (h : c ∈ normalizeText t) :
    ((isWordChar c || c = ' ') && !isUpperAscii c) = true := by
  unfold normalizeText at h
  have h1 := mem_jsTrim c _ h
  rcases mem_collapseWsAux c false _ h1 with hc | hc
  · subst hc
    decide
  · obtain ⟨hmem, hws⟩ := hc
    have h2 := List.mem_filter.mp hmem
    obtain ⟨hmap, hkeep⟩ := h2
    obtain ⟨c0, _, hc0⟩ := List.mem_map.mp hmap
    have hword : isWordChar c = true := by
      rcases Bool.or_eq_true _ _ |>.mp hkeep with hw | hw
      · exact hw
      · rw [hw] at hws
        exact absurd hws (by simp)
    have hup : isUpperAscii c = false := by
      rw [← hc0]
      exact jsLowerChar_not_upper c0
    simp [hword, hup]

/-! Inversion lemmas for generateComparison. -/

theorem jsAbs_eq_abs (x : ℚ) : jsAbs x = |x| := by
  unfold jsAbs
  by_cases hx : x < 0
  · rw [if_pos hx, abs_of_neg hx]
  · rw [if_neg hx, abs_of_nonneg (le_of_not_lt hx)]

theorem generateComparison_eq_some (f s : ℚ) (c : Comparison)
    (h : generateComparison (some f) (some s) = some c) :
    f ≠ 0 ∧ s ≠ 0 ∧
    c = { score_difference := roundTo1 |f - s|
          average_score := roundTo1 ((f + s) / 2)
          agreement_level :=
            if |f - s| > 3 then "disagree"
            else if |f - s| < 1 then "agree"
            else "similar"
          higher_rating :=
            if |f - s| > (1 / 2 : ℚ) then (if f > s then "fantano" else "scaruffi")
            else "similar" } := by
  by_cases hf : f = 0
  · simp [generateComparison, truthyNum, hf] at h
  · by_cases hs : s = 0
    · simp [generateComparison, truthyNum, hs] at h
    · refine ⟨hf, hs, ?_⟩
      unfold generateComparison at h
      have hguard : (!truthyNum (some f) || !truthyNum (some s)) = false := by
        simp [truthyNum, hf, hs]
      rw [hguard] at h
      simp only [Bool.false_eq_true, if_false, Option.getD_some, jsAbs_eq_abs,
        Option.some.injEq] at h
      exact h.symm

theorem generateComparisonCompact_eq_some (f s : ℚ) (c : Comparison)
    (h : generateComparisonCompact (some f) (some s) = some c) :
    f ≠ 0 ∧ s ≠ 0 ∧
    c = { score_difference := roundTo1 |f - s|
          average_score := roundTo1 ((f + s) / 2)
          agreement_level :=
            if |f - s| > 3 then "disagree"
            else if |f - s| < 1 then "agree"
            else "similar"
          higher_rating := if f > s then "fantano" else "scaruffi" } := by
  by_cases hf : f = 0
  · simp [generateComparisonCompact, truthyNum, hf] at h
  · by_cases hs : s = 0
    · simp [generateComparisonCompact, truthyNum, hs] at h
    · refine ⟨hf, hs, ?_⟩
      unfold generateComparisonCompact at h
      have hguard : (!truthyNum (some f) || !truthyNum (some s)) = false := by
        simp [truthyNum, hf, hs]
      rw [hguard] at h
      simp only [Bool.false_eq_true, if_false, Option.getD_some, jsAbs_eq_abs,
        Option.some.injEq] at h
      exact h.symm

/-! Sortedness and predicate preservation through take and drop. -/

theorem sortedBy_tail (le : α → α → Bool) (a : α) (l : List α)
    (h : sortedBy le (a :: l) = true) : sortedBy le l = true := by
  cases l with
  | nil => rfl
  | cons b rest =>
    simp only [sortedBy, Bool.and_eq_true] at h
    exact h.2

theorem sortedBy_take (le : α → α → Bool) :
    ∀ (n : Nat) (l : List α), sortedBy le l = true → sortedBy le (l.take n) = true
  | 0, _, _ => rfl
  | _ + 1, [], _ => rfl
  | n + 1, a :: rest, h => by
    cases rest with
    | nil => simpa [List.take] using h
    | cons b rest2 =>
      cases n with
      | zero => simp [List.take, sortedBy]
      | succ m =>
        have h1 : le a b = true := by
          simp only [sortedBy, Bool.and_eq_true] at h
          exact h.1
        have IH := sortedBy_take le (m + 1) (b :: rest2) (sortedBy_tail le a _ h)
        simp only [List.take] at IH ⊢
        simp only [sortedBy, Bool.and_eq_true]
        exact ⟨h1, IH⟩

theorem sortedBy_drop (le : α → α → Bool) :
    ∀ (n : Nat) (l : List α), sortedBy le l = true → sortedBy le (l.drop n) = true
  | 0, _, h => h
  | _ + 1, [], h => h
  | n + 1, _ :: rest, h => sortedBy_drop le n rest (sortedBy_tail le _ _ h)

theorem all_sublist (p : α → Bool) {l₁ l₂ : List α} (hs : l₁.Sublist l₂)
    (h : l₂.all p = true) : l₁.all p = true := by
  rw [List.all_eq_true] at h ⊢
  intro a ha
  exact h a (hs.subset ha)

theorem all_filter_self (p : α → Bool) (l : List α) : (l.filter p).all p = true := by
  rw [List.all_eq_true]
  intro a ha
  exact (List.mem_filter.mp ha).2

/-! Concrete generateComparison evaluations, used by witnesses below. -/

theorem gc_nine_eightFive :
    generateComparison (some 9) (some (17 / 2)) =
      some ⟨1 / 2, 44 / 5, "agree", "similar"⟩ := by
  norm_num [generateComparison, truthyNum, roundTo1, jsRound, jsAbs]

theorem gc_seven_six :
    generateComparison (some 7) (some 6) =
      some ⟨1, 13 / 2, "similar", "fantano"⟩ := by
  norm_num [generateComparison, truthyNum, roundTo1, jsRound, jsAbs]

/-! Claim theorems. -/

/-- C1: evidence of a code bug.  On the claim's example — A the fantano Kid A
review, B the scaruffi Kid A and Tago Mago reviews, limit 10 — mergeReviews
returns two entries led by the Kid A record, but that record carries no
scaruffi score, summary or url, its overlap flag is not set and it has no
comparison: the merge step mutates only the map's copy of the entry, never
the copy already pushed onto the merged list, so the claimed overlap entry is
never produced. -/
theorem C1_merge_never_updates_emitted_entry :
    mergeReviews [exF1] [exS1, exS2] 10 = [exF1, exS2] ∧
    exF1.overlap = false ∧ exF1.scaruffi_score = none ∧
    exF1.scaruffi_url = none ∧ exF1.comparison = none := by
  refine ⟨?_, by decide, by decide, by decide, by decide⟩
  have k1 : createAlbumKey (some exF1.artist) (some exF1.album) = "radiohead_kid a".data := by
    decide
  have k2 : createAlbumKey (some exS1.artist) (some exS1.album) = "radiohead_kid a".data := by
    decide
  have k3 : createAlbumKey (some exS2.artist) (some exS2.album) = "can_tago mago".data := by
    decide
  simp only [mergeReviews, List.foldl, k1, k2, k3, mapSet, mapGet, List.any, List.find?,
    List.map, stableSort, stInsert]
  norm_num [mergeCmp, exF1, exS1, exS2, qOrZero, zOrZero]

/-- C9: evidence of the same code bug seen through the limit-1 example.
Truncation does happen only after the final sort — the result is always the
limit-length prefix of the fully sorted merged list — but on the claim's
example with limit 1 the single retained entry is the Kid A record without
the overlap annotation, not the claimed Kid A overlap entry. -/
theorem C9_truncation_after_sort :
    (∀ (f s : List JsReview) (n : Nat),
      mergeReviews f s n = (mergeSortedFull f s).take n ∧
      (mergeReviews f s n).length ≤ n) ∧
    mergeReviews [exF1] [exS1, exS2] 1 = [exF1] ∧
    exF1.overlap = false := by
  refine ⟨?_, ?_, by decide⟩
  · intro f s n
    refine ⟨rfl, ?_⟩
    show ((mergeSortedFull f s).take n).length ≤ n
    rw [List.length_take]
    exact Nat.min_le_left _ _
  · have k1 : createAlbumKey (some exF1.artist) (some exF1.album) = "radiohead_kid a".data := by
      decide
    have k2 : createAlbumKey (some exS1.artist) (some exS1.album) = "radiohead_kid a".data := by
      decide
    have k3 : createAlbumKey (some exS2.artist) (some exS2.album) = "can_tago mago".data := by
      decide
    simp only [mergeReviews, List.foldl, k1, k2, k3, mapSet, mapGet, List.any, List.find?,
      List.map, stableSort, stInsert]
    norm_num [mergeCmp, exF1, exS1, exS2, qOrZero, zOrZero]

/-- C2 counterexample: two inserts whose artists differ only in ASCII casing
(identical normalized join key, identical reviewer) leave two rows in the
store.  The UNIQUE constraint compares the raw strings, so the claimed
normalized-tuple uniqueness fails. -/
theorem C2_counterexample :
    applyInserts [dupA, dupB] = [dupA, dupB] ∧
    (applyInserts [dupA, dupB]).length = 2 ∧
    createAlbumKey (some dupA.artist) (some dupA.album) =
      createAlbumKey (some dupB.artist) (some dupB.album) ∧
    dupA.reviewer = dupB.reviewer ∧
    dupA.score ≠ dupB.score := by
  refine ⟨by decide, by decide, by decide, by decide, by decide⟩

/-- C2 amended: the uniqueness invariant holds for the raw
(artist, album, reviewer) tuple, not the normalized one.  After any sequence
of upserts from an empty store the raw tuples are pairwise distinct, and
inserting the same raw tuple twice leaves exactly one row with that tuple —
the second record. -/
theorem C2_raw_key_unique :
    (∀ rs : List Row, distinctKeys (applyInserts rs) = true) ∧
    (∀ (db : List Row) (r1 r2 : Row), sameRawKey r1 r2 = true →
      (insertReview (insertReview db r1) r2).filter (fun x => sameRawKey x r2) = [r2]) := by
  constructor
  · intro rs
    exact distinctKeys_foldl rs [] rfl
  · intro db r1 r2 _
    exact filter_insertReview (insertReview db r1) r2

/-- C2 witness: the duplicate-insert clause applied to the concrete pair of
same-raw-tuple rows with different scores. -/
theorem C2_raw_key_unique_witness :
    (insertReview (insertReview [] dupA) { dupA with score := some 8 }).filter
      (fun x => sameRawKey x { dupA with score := some 8 }) =
      [{ dupA with score := some 8 }] :=
  C2_raw_key_unique.2 [] dupA { dupA with score := some 8 } (by decide)

/-- C3 counterexample: the source normalization keeps underscores (JS word
characters), so the produced key differs from the spec transformation, the
separator occurs inside a transformed field, and two distinct input pairs
collide on the same key. -/
theorem C3_counterexample :
    createAlbumKey (some "a_b".data) (some "c".data) ≠ specKey "a_b".data "c".data ∧
    '_' ∈ normalizeText (some "a_b".data) ∧
    createAlbumKey (some "a_b".data) (some "c".data) =
      createAlbumKey (some "a".data) (some "b_c".data) := by
  refine ⟨by decide, by decide, by decide⟩

/-- C3 amended: the key is the two normalizeText images joined by an
underscore, where normalizeText keeps ASCII alphanumerics, underscores and
whitespace (collapsed and trimmed) after lower-casing: every character of a
transformed field is a word character (letter, digit or underscore) or a
space and never an upper-case ASCII letter, and the underscore separator can
itself occur inside a transformed field. -/
theorem C3_key_shape :
    (∀ a b : Str, createAlbumKey (some a) (some b) =
      normalizeText (some a) ++ '_' :: normalizeText (some b)) ∧
    (∀ t : Option Str, (normalizeText t).all
      (fun c => (isWordChar c || c = ' ') && !isUpperAscii c) = true) ∧
    normalizeText (some "a_b".data) = "a_b".data := by
  refine ⟨fun a b => rfl, ?_, by decide⟩
  intro t
  rw [List.all_eq_true]
  intro c hc
  exact normalizeText_chars t c hc

/-- C4 counterexample: a present score of 0 is falsy in the guard, so
generateComparison returns null although both scores are present — the
claimed "null iff a score is absent" fails at score 0. -/
theorem C4_counterexample : generateComparison (some 0) (some 5) = none := by decide

/-- C4 amended: generateComparison returns null exactly when either score is
absent or equal to 0 (JS falsiness); and the overlap branch emits one entry
per joined row carrying its raw fields with overlap set, whether or not the
comparison is null. -/
theorem C4_null_iff_falsy_score :
    (∀ fs ss : Option ℚ, generateComparison fs ss = none ↔
      (fs = none ∨ fs = some 0 ∨ ss = none ∨ ss = some 0)) ∧
    (∀ rows : List OverlapRow,
      (transformOverlaps rows).length = rows.length ∧
      (transformOverlaps rows).all (fun e => e.overlap) = true ∧
      (transformOverlaps rows).map (fun e => (e.fantano_score, e.scaruffi_score)) =
        rows.map (fun r => (r.fantano_score, r.scaruffi_score))) := by
  constructor
  · intro fs ss
    cases fs with
    | none => simp [generateComparison, truthyNum]
    | some f =>
      cases ss with
      | none => simp [generateComparison, truthyNum]
      | some s =>
        by_cases hf : f = 0
        · simp [generateComparison, truthyNum, hf]
        · by_cases hs : s = 0
          · simp [generateComparison, truthyNum, hs]
          · simp [generateComparison, truthyNum, hf, hs]
  · intro rows
    refine ⟨by simp [transformOverlaps], ?_, by simp [transformOverlaps]⟩
    simp [transformOverlaps, List.all_map]

/-- C5 counterexample: the server-compact generateComparison names the higher
side even when the difference is within the 0.5 threshold — at scores 9 and
8.8 (difference 0.2) it reports "fantano", not "similar". -/
theorem C5_counterexample :
    generateComparisonCompact (some 9) (some (44 / 5)) =
      some ⟨1 / 5, 89 / 10, "agree", "fantano"⟩ ∧
    |(9 : ℚ) - 44 / 5| ≤ 1 / 2 := by
  constructor
  · norm_num [generateComparisonCompact, truthyNum, roundTo1, jsRound, jsAbs]
  · rw [abs_of_nonneg (by norm_num)]
    norm_num

/-- C5 amended: in the review-service generateComparison, higher_rating is
"similar" exactly when the absolute difference is at most 0.5, and otherwise
names the side with the strictly higher score; the server-compact
generateComparison has no such threshold and always names the side with the
strictly higher score (the scaruffi side on ties). -/
theorem C5_preferred_source_threshold :
    (∀ (f s : ℚ) (c : Comparison), generateComparison (some f) (some s) = some c →
      ((c.higher_rating = "similar" ↔ |f - s| ≤ 1 / 2) ∧
       (1 / 2 < |f - s| → c.higher_rating = if f > s then "fantano" else "scaruffi"))) ∧
    (∀ (f s : ℚ) (c : Comparison), generateComparisonCompact (some f) (some s) = some c →
      c.higher_rating = if f > s then "fantano" else "scaruffi") := by
  constructor
  · intro f s c h
    obtain ⟨-, -, hc⟩ := generateComparison_eq_some f s c h
    have hr : c.higher_rating =
        (if |f - s| > (1 / 2 : ℚ) then (if f > s then "fantano" else "scaruffi")
         else "similar") := by
      rw [hc]
    by_cases hd : |f - s| > (1 / 2 : ℚ)
    · rw [if_pos hd] at hr
      constructor
      · constructor
        · intro hstr
          rw [hr] at hstr
          by_cases hfs : f > s
          · rw [if_pos hfs] at hstr
            exact absurd hstr (by decide)
          · rw [if_neg hfs] at hstr
            exact absurd hstr (by decide)
        · intro hle
          linarith
      · intro _
        exact hr
    · rw [if_neg hd] at hr
      constructor
      · rw [hr]
        simp only [true_iff]
        linarith [not_lt.mp hd]
      · intro hlt
        exact absurd hlt hd
  · intro f s c h
    obtain ⟨-, -, hc⟩ := generateComparisonCompact_eq_some f s c h
    subst hc
    rfl

/-- C5 witness: the similar-threshold clause applied at scores 9 and 8.5. -/
theorem C5_preferred_source_threshold_witness :
    (Comparison.mk (1 / 2) (44 / 5) "agree" "similar").higher_rating = "similar" ↔
      |(9 : ℚ) - 17 / 2| ≤ 1 / 2 :=
  (C5_preferred_source_threshold.1 9 (17 / 2)
    ⟨1 / 2, 44 / 5, "agree", "similar"⟩ gc_nine_eightFive).1

/-- C6: the agreement classification of both generateComparison variants is
"agree" exactly when the absolute difference is below 1, "disagree" exactly
when it exceeds 3, and "similar" exactly on the closed band in between — in
particular a difference of exactly 1 is "similar", not "agree". -/
theorem C6_agreement_thresholds :
    (∀ (f s : ℚ) (c : Comparison), generateComparison (some f) (some s) = some c →
      ((c.agreement_level = "agree" ↔ |f - s| < 1) ∧
       (c.agreement_level = "disagree" ↔ 3 < |f - s|) ∧
       (c.agreement_level = "similar" ↔ (1 ≤ |f - s| ∧ |f - s| ≤ 3)))) ∧
    (∀ (f s : ℚ) (c : Comparison), generateComparisonCompact (some f) (some s) = some c →
      ((c.agreement_level = "agree" ↔ |f - s| < 1) ∧
       (c.agreement_level = "disagree" ↔ 3 < |f - s|) ∧
       (c.agreement_level = "similar" ↔ (1 ≤ |f - s| ∧ |f - s| ≤ 3)))) := by
  have key : ∀ d : ℚ,
      (((if d > 3 then "disagree" else if d < 1 then "agree" else "similar") : String) = "agree"
        ↔ d < 1) ∧
      (((if d > 3 then "disagree" else if d < 1 then "agree" else "similar") : String) = "disagree"
        ↔ 3 < d) ∧
      (((if d > 3 then "disagree" else if d < 1 then "agree" else "similar") : String) = "similar"
        ↔ (1 ≤ d ∧ d ≤ 3)) := by
    intro d
    by_cases h3 : d > 3
    · rw [if_pos h3]
      refine ⟨?_, ?_, ?_⟩
      · simp only [show ("disagree" : String) ≠ "agree" from by decide, false_iff]
        linarith
      · simp [h3]
      · simp only [show ("disagree" : String) ≠ "similar" from by decide, false_iff]
        intro hc
        linarith [hc.2]
    · by_cases h1 : d < 1
      · rw [if_neg h3, if_pos h1]
        refine ⟨by simp [h1], ?_, ?_⟩
        · simp only [show ("agree" : String) ≠ "disagree" from by decide, false_iff]
          linarith
        · simp only [show ("agree" : String) ≠ "similar" from by decide, false_iff]
          intro hc
          linarith [hc.1]
      · rw [if_neg h3, if_neg h1]
        refine ⟨?_, ?_, ?_⟩
        · simp only [show ("similar" : String) ≠ "agree" from by decide, false_iff]
          exact h1
        · simp only [show ("similar" : String) ≠ "disagree" from by decide, false_iff]
          exact h3
        · simp only [true_iff]
          exact ⟨le_of_not_lt h1, le_of_not_lt h3⟩
  constructor
  · intro f s c h
    obtain ⟨-, -, hc⟩ := generateComparison_eq_some f s c h
    subst hc
    exact key |f - s|
  · intro f s c h
    obtain ⟨-, -, hc⟩ := generateComparisonCompact_eq_some f s c h
    subst hc
    exact key |f - s|

/-- C6 witness: the boundary case of scores 7 and 6 — difference exactly 1 is
classified "similar". -/
theorem C6_agreement_thresholds_witness :
    (Comparison.mk 1 (13 / 2) "similar" "fantano").agreement_level = "similar" ↔
      (1 ≤ |(7 : ℚ) - 6| ∧ |(7 : ℚ) - 6| ≤ 3) :=
  (C6_agreement_thresholds.1 7 6 ⟨1, 13 / 2, "similar", "fantano"⟩ gc_seven_six).2.2

/-- C10: createAlbumKey and normalizeText are total functions of their
(possibly null) inputs; a missing or empty field normalizes to the empty
string, so any two records with both fields missing or empty share the key
consisting of the separator alone. -/
theorem C10_missing_fields_collapse_to_separator :
    normalizeText none = [] ∧ normalizeText (some []) = [] ∧
    (∀ a b : Option Str,
      (a = none ∨ a = some []) → (b = none ∨ b = some []) →
      createAlbumKey a b = ['_']) := by
  refine ⟨rfl, rfl, ?_⟩
  intro a b ha hb
  rcases ha with ha | ha <;> rcases hb with hb | hb <;> subst ha <;> subst hb <;> decide

/-- C10 witness: a null artist with an empty album yields the bare-separator
key. -/
theorem C10_missing_fields_witness : createAlbumKey none (some []) = ['_'] :=
  C10_missing_fields_collapse_to_separator.2.2 none (some []) (Or.inl rfl) (Or.inr rfl)

/-- C7 counterexample: two rows with the same year where Database.getReviews
returns the lower-scored row first because its artist sorts earlier — the
secondary sort key is artist (then album), not score, so the claimed
year-then-score ordering fails. -/
theorem C7_counterexample :
    dbGetReviews [exRowB, exRowA] none none none 100 0 = [exRowA, exRowB] ∧
    exRowA.year = exRowB.year ∧
    optRatLt exRowA.score exRowB.score = true := by
  refine ⟨by decide, by decide, by decide⟩

/-- C7 amended: Database.getReviews returns matching rows ordered by year
descending, then artist ascending, then album ascending (equal keys in rowid
order), limited after an offset; CompactDatabase.getReviews of
server-compact.js returns matching rows ordered by year descending then
score descending, truncated to the limit.  Every returned row satisfies the
requested filters. -/
theorem C7_query_ordering :
    (∀ (db : List Row) (a al rv : Option Str) (lim off : Nat),
      sortedBy dbRowLe (dbGetReviews db a al rv lim off) = true ∧
      (dbGetReviews db a al rv lim off).length ≤ lim ∧
      (dbGetReviews db a al rv lim off).all (rowMatches a al rv) = true) ∧
    (∀ (db : List Row) (a al rv : Option Str) (mn mx : Option ℚ) (lim : Nat),
      sortedBy compactRowLe (compactGetReviews db a al rv mn mx lim) = true ∧
      (compactGetReviews db a al rv mn mx lim).length ≤ lim ∧
      (compactGetReviews db a al rv mn mx lim).all
        (compactMatches a al rv mn mx) = true) := by
  constructor
  · intro db a al rv lim off
    refine ⟨?_, ?_, ?_⟩
    · exact sortedBy_take _ lim _ (sortedBy_drop _ off _
        (sortedBy_stableSort dbRowLt dbRowLt_asymm _))
    · show ((_ : List Row).take lim).length ≤ lim
      rw [List.length_take]
      exact Nat.min_le_left _ _
    · refine all_sublist _ ((List.take_sublist _ _).trans (List.drop_sublist _ _)) ?_
      rw [all_stableSort]
      exact all_filter_self _ _
  · intro db a al rv mn mx lim
    refine ⟨?_, ?_, ?_⟩
    · exact sortedBy_take _ lim _ (sortedBy_stableSort compactRowLt compactRowLt_asymm _)
    · show ((_ : List Row).take lim).length ≤ lim
      rw [List.length_take]
      exact Nat.min_le_left _ _
    · refine all_sublist _ (List.take_sublist _ _) ?_
      rw [all_stableSort]
      exact all_filter_self _ _

/-- C8 counterexample: two overlap pairs in the same year; the pair produced
first by the join (smaller score difference, 0 versus 7) is returned first,
so equal-year overlaps are not ordered by score difference descending. -/
theorem C8_counterexample :
    getOverlappingReviews [cFX, cFY, cSX, cSY] none none 100 =
      [joinRow cFX cSX, joinRow cFY cSY] ∧
    (joinRow cFX cSX).year = (joinRow cFY cSY).year ∧
    jsAbs (qOrZero (joinRow cFX cSX).fantano_score -
        qOrZero (joinRow cFX cSX).scaruffi_score) <
      jsAbs (qOrZero (joinRow cFY cSY).fantano_score -
        qOrZero (joinRow cFY cSY).scaruffi_score) := by
  refine ⟨by decide, by decide, ?_⟩
  show jsAbs ((5 : ℚ) - 5) < jsAbs ((9 : ℚ) - 2)
  rw [jsAbs_eq_abs, jsAbs_eq_abs]
  norm_num

/-- C8 amended: both overlap queries order their output by year descending
only — equal-year entries stay in join (rowid scan) order, with no
score-difference tie-break; the filtered query also respects its limit. -/
theorem C8_overlap_ordering :
    (∀ (db : List Row) (a al : Option Str) (lim : Nat),
      sortedBy overlapYearLe (getOverlappingReviews db a al lim) = true ∧
      (getOverlappingReviews db a al lim).length ≤ lim) ∧
    (∀ db : List Row, sortedBy overlapYearLe (compactGetOverlaps db) = true) := by
  constructor
  · intro db a al lim
    constructor
    · exact sortedBy_take _ lim _
        (sortedBy_stableSort overlapYearLt overlapYearLt_asymm _)
    · show ((_ : List OverlapRow).take lim).length ≤ lim
      rw [List.length_take]
      exact Nat.min_le_left _ _
  · intro db
    exact sortedBy_stableSort overlapYearLt overlapYearLt_asymm _

end MusicReview
